import Mathlib

/-!
Shallow embedding of `src/main.py` (NADAC weekly-comparison report tool).

The program downloads a CSV of drug price changes, folds the rows into a
Python `dict` mapping NDC description to the per-unit price change
(`Decimal(row[3]) - Decimal(row[2])`, last write wins), and prints the top
10 increases and decreases of the descending sort of that dict.

Modelling decisions:
* Python `Decimal` values (restricted to the plain decimal literals the
  program ever constructs: optional sign, digits, optional fraction) are
  `Dec`: an integer mantissa together with the number of fractional
  digits, denoting `mant / 10 ^ fd`.  Subtraction aligns the operands to
  the larger fractional-digit count, exactly as `Decimal` arithmetic does
  on this data (the CSV carries at most 5 fractional digits, far below the
  28-significant-digit context, so no context rounding ever occurs).
* The byte-stream / CSV framing is an external collaborator; the embedding
  starts from the parsed rows, `List (List String)`, one list of fields
  per CSV row, exactly what `csv.reader` hands to the `for` loop.
* The Python `dict` is an insertion-ordered association list; overwriting
  an existing key keeps its position, a new key is appended — Python dict
  semantics, which also fixes the iteration order seen by `sorted`.
* Uncaught Python exceptions (`IndexError` from `row[2]` / `row[3]`,
  `decimal.InvalidOperation` from `Decimal(...)`) become `Except.error`;
  the loop is fail-fast, so an error row aborts the whole load.
* `sorted(data.items(), key=lambda x: x[1], reverse=True)` is a stable
  descending sort; `List.mergeSort` is stable, so with the comparator
  "b ≤ a on values" it computes the identical list.
* `print` output is modelled as the list of printed lines (the leading
  `"\n"` of the second title becomes an empty line).
-/

namespace NadacMain

/-- A Python `Decimal` as constructed by this program: integer mantissa and
number of fractional digits, denoting `mant / 10 ^ fd`. -/
structure Dec where
  mant : Int
  fd : Nat
deriving DecidableEq, Repr

/-- Numeric value of a `Dec` as an exact rational. -/
def Dec.val (d : Dec) : ℚ := (d.mant : ℚ) / (10 : ℚ) ^ d.fd

/-- Exact `Decimal` subtraction `a - b`: align both operands to the larger
fractional-digit count and subtract mantissas. -/
def Dec.sub (a b : Dec) : Dec :=
  { mant := a.mant * (10 : Int) ^ (max a.fd b.fd - a.fd)
          - b.mant * (10 : Int) ^ (max a.fd b.fd - b.fd)
    fd := max a.fd b.fd }

/-- Python `abs` on a `Decimal`. -/
def Dec.absD (d : Dec) : Dec := { mant := |d.mant|, fd := d.fd }

/-- Numeric comparison of two `Dec`s (`Decimal.__le__`), by cross
multiplication of the mantissas. -/
def Dec.ble (a b : Dec) : Bool :=
  decide (a.mant * (10 : Int) ^ b.fd ≤ b.mant * (10 : Int) ^ a.fd)

/-- Python `str` on a `Decimal` built by this program (exponent ≤ 0, never
in the scientific-notation range): optional sign, then the mantissa digits
with a decimal point inserted `fd` places from the right, zero padded. -/
def Dec.render (d : Dec) : String :=
  let sign := if d.mant < 0 then "-" else ""
  let s := Nat.repr d.mant.natAbs
  if d.fd = 0 then
    sign ++ s
  else if s.length ≤ d.fd then
    sign ++ "0." ++ String.mk (List.replicate (d.fd - s.length) '0') ++ s
  else
    sign ++ s.take (s.length - d.fd) ++ "." ++ s.drop (s.length - d.fd)

/-- Numeric value of a list of decimal digit characters. -/
def digitsVal (cs : List Char) : Nat :=
  cs.foldl (fun a c => a * 10 + (c.toNat - 48)) 0

/-- Parse an unsigned decimal literal (digits with at most one dot, at
least one digit overall), as `Decimal(str)` accepts for plain numerals. -/
def parseUnsignedDec (cs : List Char) : Option Dec :=
  match cs.splitOn '.' with
  | [ip] =>
    if !ip.isEmpty && ip.all Char.isDigit then
      some { mant := (digitsVal ip : Int), fd := 0 }
    else none
  | [ip, fp] =>
    if !(ip ++ fp).isEmpty && (ip ++ fp).all Char.isDigit then
      some { mant := (digitsVal (ip ++ fp) : Int), fd := fp.length }
    else none
  | _ => none

/-- The `Decimal(string)` constructor on the plain numeric literals in this
dataset; `none` models `decimal.InvalidOperation`. -/
def parseDec (s : String) : Option Dec :=
  match s.data with
  | '-' :: rest => (parseUnsignedDec rest).map fun d => { mant := -d.mant, fd := d.fd }
  | '+' :: rest => parseUnsignedDec rest
  | cs => parseUnsignedDec cs

/-- `format_dollar_amount` from `src/main.py`: `"-$" + str(abs(amount))`
for negative amounts, `"$" + str(amount)` otherwise. -/
def format_dollar_amount (amount : Dec) : String :=
  if amount.mant < 0 then "-$" ++ (Dec.absD amount).render
  else "$" ++ amount.render

/-- The uncaught Python exceptions the row-processing loop can raise. -/
inductive PyErr where
  | indexError
  | invalidOperation
deriving DecidableEq, Repr

/-- The dict of the loader: insertion-ordered association list from NDC
description to price change. -/
abbrev Index := List (String × Dec)

/-- Python `dict.update({k: v})`: overwrite in place if the key exists,
append otherwise. -/
def dictUpdate (d : Index) (k : String) (v : Dec) : Index :=
  match d with
  | [] => [(k, v)]
  | (k', v') :: t => if k' = k then (k', v) :: t else (k', v') :: dictUpdate t k v

/-- One iteration of the `for row in reader` loop body: skip the row if its
first field is the header literal, otherwise read columns 2 and 3 as
decimals and produce the (description, price change) pair.  Errors model
the exceptions Python raises, in evaluation order (`row[0]`, `row[2]`,
`Decimal(row[2])`, `row[3]`, `Decimal(row[3])`). -/
def processRow (row : List String) : Except PyErr (Option (String × Dec)) :=
  match row with
  | [] => .error .indexError
  | description :: _ =>
    if description = "NDC Description" then .ok none
    else
      match row[2]? with
      | none => .error .indexError
      | some s2 =>
        match parseDec s2 with
        | none => .error .invalidOperation
        | some old_nadac =>
          match row[3]? with
          | none => .error .indexError
          | some s3 =>
            match parseDec s3 with
            | none => .error .invalidOperation
            | some new_nadac => .ok (some (description, Dec.sub new_nadac old_nadac))

/-- The loader loop: fold rows into the dict, aborting on the first
exception (fail-fast: an uncaught exception ends the program). -/
def loadRows (acc : Index) : List (List String) → Except PyErr Index
  | [] => .ok acc
  | row :: rest =>
    match processRow row with
    | .error e => .error e
    | .ok none => loadRows acc rest
    | .ok (some (k, v)) => loadRows (dictUpdate acc k v) rest

/-- `parse_nadac_data` from `src/main.py`, starting from the parsed CSV
rows (the HTTP byte stream and `csv.reader` framing are external): returns
the dict from description to per-unit price change. -/
def parse_nadac_data (rows : List (List String)) : Except PyErr Index :=
  loadRows [] rows

/-- `sorted(data.items(), key=lambda x: x[1], reverse=True)`: stable sort,
descending by price change. -/
def data_by_price_change (data : Index) : Index :=
  data.mergeSort (fun a b => Dec.ble b.2 a.2)

/-- `data_by_price_change[:10]`. -/
def top_10_increases (data : Index) : Index :=
  (data_by_price_change data).take 10

/-- `data_by_price_change[-10:]`. -/
def top_10_decreases (data : Index) : Index :=
  (data_by_price_change data).drop ((data_by_price_change data).length - 10)

/-- One printed report line of `print_top_10s`. -/
def reportLine (p : String × Dec) : String :=
  format_dollar_amount p.2 ++ ": " ++ p.1

/-- Title line printed before the increases section. -/
def increasesTitle : String := "Top 10 NADAC per unit price increases of 2023:"

/-- Title line printed before the decreases section. -/
def decreasesTitle : String := "Top 10 NADAC per unit price decreases of 2023:"

/-- `print_top_10s` from `src/main.py`, as the list of printed lines; the
leading `"\n"` of the second title is the empty line. -/
def print_top_10s (data : Index) : List String :=
  [increasesTitle] ++ (top_10_increases data).map reportLine
    ++ [""] ++ [decreasesTitle] ++ (top_10_decreases data).map reportLine

/-- The header row of the NADAC comparison CSV. -/
def headerRow : List String :=
  ["NDC Description", "NDC", "Old NADAC Per Unit", "New NADAC Per Unit",
   "Classification for Rate Setting", "Percent Change", "Primary Reason",
   "Start Date", "End Date", "Effective Date"]

/-! ### Basic facts about the `Dec` value semantics -/

theorem Dec.val_neg_iff (d : Dec) : d.val < 0 ↔ d.mant < 0 := by
  have hp : (0 : ℚ) < (10 : ℚ) ^ d.fd := by positivity
  rw [Dec.val, div_lt_iff₀ hp, zero_mul]
  exact_mod_cast Iff.rfl

theorem Dec.val_nonneg_iff (d : Dec) : 0 ≤ d.val ↔ 0 ≤ d.mant := by
  have hp : (0 : ℚ) < (10 : ℚ) ^ d.fd := by positivity
  rw [Dec.val, le_div_iff₀ hp, zero_mul]
  exact_mod_cast Iff.rfl

/-- The comparator used by the report sort is the numeric order on values. -/
theorem Dec.ble_iff (a b : Dec) : a.ble b = true ↔ a.val ≤ b.val := by
  have hpa : (0 : ℚ) < (10 : ℚ) ^ a.fd := by positivity
  have hpb : (0 : ℚ) < (10 : ℚ) ^ b.fd := by positivity
  rw [Dec.ble, decide_eq_true_iff, Dec.val, Dec.val, div_le_div_iff₀ hpa hpb]
  constructor
  · intro h; exact_mod_cast h
  · intro h; exact_mod_cast h

theorem pow_scale_div (m : Int) (e F : Nat) (h : e ≤ F) :
    ((m : ℚ) * (10 : ℚ) ^ (F - e)) / (10 : ℚ) ^ F = (m : ℚ) / (10 : ℚ) ^ e := by
  rw [div_eq_div_iff (by positivity) (by positivity), mul_assoc, ← pow_add]
  have he : F - e + e = F := by omega
  rw [he]

/-- `Decimal` subtraction is exact on values: no approximation of any kind. -/
theorem Dec.val_sub (a b : Dec) : (Dec.sub a b).val = a.val - b.val := by
  show ((a.mant * (10 : Int) ^ (max a.fd b.fd - a.fd)
      - b.mant * (10 : Int) ^ (max a.fd b.fd - b.fd) : Int) : ℚ)
      / (10 : ℚ) ^ (max a.fd b.fd) = a.val - b.val
  rw [Dec.val, Dec.val]
  push_cast
  rw [sub_div, pow_scale_div _ _ _ (le_max_left a.fd b.fd),
    pow_scale_div _ _ _ (le_max_right a.fd b.fd)]

/-! ### Claim theorems: numerics and formatting -/

/-- Claim C4: the per-unit price delta is computed by exact decimal
subtraction — for all decimals, the value of `Dec.sub` is the exact
rational difference — and on the worked row (old `0.03051`, new `0.02509`)
the loop computes a delta that is exactly the rational `-0.00542`. -/
theorem delta_exact_decimal :
    (∀ old_nadac new_nadac : Dec,
      (Dec.sub new_nadac old_nadac).val = new_nadac.val - old_nadac.val) ∧
    processRow ["AMOXICILLIN 200 MG/5 ML SUSP", "00093416073", "0.03051", "0.02509",
        "G", "-17.76", "Survey Rate", "12/14/2022", "12/21/2022", "12/21/2022"]
      = Except.ok (some ("AMOXICILLIN 200 MG/5 ML SUSP", ⟨-542, 5⟩)) ∧
    (⟨-542, 5⟩ : Dec).val = -(0.00542 : ℚ) := by
  refine ⟨fun old_nadac new_nadac => Dec.val_sub _ _, by rfl, ?_⟩
  rw [Dec.val]
  norm_num

/-- Claim C5: `format_dollar_amount` renders a non-negative delta as
`"$"` followed by its absolute value at the stored precision and a
negative delta as `"-$"` followed by its absolute value; in particular
`-0.00542` renders as `"-$0.00542"` and `1261.36` as `"$1261.36"`. -/
theorem format_dollar_amount_spec (d : Dec) :
    (0 ≤ d.val → format_dollar_amount d = "$" ++ Dec.render (Dec.absD d)) ∧
    (d.val < 0 → format_dollar_amount d = "-$" ++ Dec.render (Dec.absD d)) ∧
    format_dollar_amount ⟨-542, 5⟩ = "-$0.00542" ∧
    format_dollar_amount ⟨126136, 2⟩ = "$1261.36" := by
  refine ⟨?_, ?_, by decide, by decide⟩
  · intro h
    have hm : 0 ≤ d.mant := (Dec.val_nonneg_iff d).mp h
    have habs : Dec.absD d = d := by
      simp [Dec.absD, abs_of_nonneg hm]
    rw [habs, format_dollar_amount, if_neg (by omega)]
  · intro h
    have hm : d.mant < 0 := (Dec.val_neg_iff d).mp h
    rw [format_dollar_amount, if_pos hm]

/-- Witness for C5 at concrete amounts (`-0.00542` and `1261.36`). -/
theorem format_dollar_amount_spec_witness :
    format_dollar_amount ⟨-542, 5⟩ = "-$" ++ Dec.render (Dec.absD ⟨-542, 5⟩) ∧
    format_dollar_amount ⟨126136, 2⟩ = "$" ++ Dec.render (Dec.absD ⟨126136, 2⟩) :=
  ⟨(format_dollar_amount_spec ⟨-542, 5⟩).2.1 ((Dec.val_neg_iff _).mpr (by decide)),
   (format_dollar_amount_spec ⟨126136, 2⟩).1 ((Dec.val_nonneg_iff _).mpr (by decide))⟩

/-! ### Dict semantics: lookup, key uniqueness, last-write-wins -/

/-- Python `dict` lookup on the association-list model. -/
def lookupIdx (k : String) : Index → Option Dec
  | [] => none
  | (k', v) :: t => if k' = k then some v else lookupIdx k t

theorem lookupIdx_dictUpdate (d : Index) (k j : String) (v : Dec) :
    lookupIdx j (dictUpdate d k v) = if k = j then some v else lookupIdx j d := by
  induction d with
  | nil =>
    by_cases hkj : k = j <;> simp [dictUpdate, lookupIdx, hkj]
  | cons p t ih =>
    obtain ⟨k', v'⟩ := p
    by_cases hk : k' = k
    · subst hk
      by_cases hj : k' = j
      · subst hj; simp [dictUpdate, lookupIdx]
      · simp [dictUpdate, lookupIdx, hj]
    · by_cases hj : k' = j
      · subst hj
        have : k ≠ k' := fun h => hk h.symm
        simp [dictUpdate, lookupIdx, hk, this]
      · simp [dictUpdate, lookupIdx, hk, hj, ih]

theorem mem_keys_dictUpdate (d : Index) (k j : String) (v : Dec) :
    j ∈ (dictUpdate d k v).map Prod.fst ↔ j = k ∨ j ∈ d.map Prod.fst := by
  induction d with
  | nil => simp [dictUpdate, eq_comm]
  | cons p t ih =>
    obtain ⟨k', v'⟩ := p
    by_cases hk : k' = k
    · subst hk
      simp only [dictUpdate, if_true, eq_self_iff_true, List.map_cons, List.mem_cons]
      tauto
    · simp only [dictUpdate, if_neg hk, List.map_cons, List.mem_cons, ih]
      tauto

theorem nodup_keys_dictUpdate (d : Index) (k : String) (v : Dec)
    (h : (d.map Prod.fst).Nodup) : ((dictUpdate d k v).map Prod.fst).Nodup := by
  induction d with
  | nil => simp [dictUpdate]
  | cons p t ih =>
    obtain ⟨k', v'⟩ := p
    simp only [List.map_cons, List.nodup_cons] at h
    by_cases hk : k' = k
    · subst hk
      simp only [dictUpdate, if_true, eq_self_iff_true, List.map_cons, List.nodup_cons]
      exact h
    · simp only [dictUpdate, if_neg hk, List.map_cons, List.nodup_cons]
      refine ⟨?_, ih h.2⟩
      rw [mem_keys_dictUpdate]
      rintro (hc | hc)
      · exact hk hc
      · exact h.1 hc

theorem lookupIdx_isSome_of_mem_keys (d : Index) (j : String)
    (h : j ∈ d.map Prod.fst) : ∃ v, lookupIdx j d = some v := by
  induction d with
  | nil => simp at h
  | cons p t ih =>
    obtain ⟨k', v'⟩ := p
    simp only [List.map_cons, List.mem_cons] at h
    by_cases hj : k' = j
    · exact ⟨v', by simp [lookupIdx, hj]⟩
    · rcases h with h | h
      · exact absurd h.symm hj
      · obtain ⟨v, hv⟩ := ih h
        exact ⟨v, by simp [lookupIdx, hj, hv]⟩

theorem mem_keys_of_lookupIdx (d : Index) (j : String) (v : Dec)
    (h : lookupIdx j d = some v) : j ∈ d.map Prod.fst := by
  induction d with
  | nil => simp [lookupIdx] at h
  | cons p t ih =>
    obtain ⟨k', v'⟩ := p
    by_cases hj : k' = j
    · simp [hj]
    · simp only [lookupIdx, if_neg hj] at h
      simp [ih h]

/-- Loading preserves key uniqueness of the dict at every step. -/
theorem loadRows_nodup_keys (rows : List (List String)) :
    ∀ acc idx, (acc.map Prod.fst).Nodup → loadRows acc rows = Except.ok idx →
      (idx.map Prod.fst).Nodup := by
  induction rows with
  | nil =>
    intro acc idx hacc h
    simp only [loadRows] at h
    cases h
    exact hacc
  | cons row rest ih =>
    intro acc idx hacc h
    simp only [loadRows] at h
    cases hpr : processRow row with
    | error e => rw [hpr] at h; cases h
    | ok o =>
      cases o with
      | none => rw [hpr] at h; exact ih acc idx hacc h
      | some p =>
        obtain ⟨k, v⟩ := p
        rw [hpr] at h
        exact ih _ idx (nodup_keys_dictUpdate acc k v hacc) h

/-- Updated value of the latest row carrying key `d`, scanning left to
right: the specification's "delta computed from the last such row". -/
def stepLast (d : String) (cur : Option Dec) (row : List String) : Option Dec :=
  match processRow row with
  | .ok (some (k, v)) => if k = d then some v else cur
  | _ => cur

/-- Delta of the last successfully processed row with description `d`
(`none` when no such row exists): the reference value for last-write-wins. -/
def specLastDelta (d : String) (rows : List (List String)) : Option Dec :=
  rows.foldl (stepLast d) none

theorem lookupIdx_loadRows (d : String) (rows : List (List String)) :
    ∀ acc idx, loadRows acc rows = Except.ok idx →
      lookupIdx d idx = rows.foldl (stepLast d) (lookupIdx d acc) := by
  induction rows with
  | nil =>
    intro acc idx h
    simp only [loadRows] at h
    cases h
    simp
  | cons row rest ih =>
    intro acc idx h
    simp only [loadRows] at h
    simp only [List.foldl_cons]
    cases hpr : processRow row with
    | error e => rw [hpr] at h; cases h
    | ok o =>
      cases o with
      | none =>
        rw [hpr] at h
        rw [ih acc idx h]
        have : stepLast d (lookupIdx d acc) row = lookupIdx d acc := by
          simp [stepLast, hpr]
        rw [this]
      | some p =>
        obtain ⟨k, v⟩ := p
        rw [hpr] at h
        rw [ih _ idx h, lookupIdx_dictUpdate]
        have : stepLast d (lookupIdx d acc) row = if k = d then some v else lookupIdx d acc := by
          simp [stepLast, hpr]
        rw [this]

/-! ### Claim theorems: dedup, header skip, empty input -/

/-- Claim C3: the dict keeps at most one entry per description at every
point during loading; after a successful load the entry for a description
is the delta of the last row carrying it (last write wins, no merging),
and a description that occurs in some row has exactly one entry. -/
theorem dedup_last_write_wins (rows : List (List String)) (idx : Index) (d : String)
    (h : parse_nadac_data rows = Except.ok idx) :
    lookupIdx d idx = specLastDelta d rows ∧
    ((idx.map Prod.fst).count d ≤ 1) ∧
    (specLastDelta d rows ≠ none → (idx.map Prod.fst).count d = 1) ∧
    (∀ acc rows2 idx2, (acc.map Prod.fst).Nodup →
      loadRows acc rows2 = Except.ok idx2 → (idx2.map Prod.fst).Nodup) := by
  have hload : loadRows [] rows = Except.ok idx := h
  have hnodup : (idx.map Prod.fst).Nodup :=
    loadRows_nodup_keys rows [] idx (by simp) hload
  have hlook : lookupIdx d idx = specLastDelta d rows := by
    rw [lookupIdx_loadRows d rows [] idx hload]
    rfl
  refine ⟨hlook, List.nodup_iff_count_le_one.mp hnodup d, ?_, ?_⟩
  · intro hne
    obtain ⟨v, hv⟩ : ∃ v, lookupIdx d idx = some v := by
      cases hl : lookupIdx d idx with
      | none => rw [hlook] at hl; exact absurd hl hne
      | some v => exact ⟨v, rfl⟩
    exact List.count_eq_one_of_mem hnodup (mem_keys_of_lookupIdx idx d v hv)
  · intro acc rows2 idx2 hacc h2
    exact loadRows_nodup_keys rows2 acc idx2 hacc h2

/-- Witness for C3: two rows share the description "A"; the loaded dict
has exactly the one entry of the later row (delta 1.00, not 2.00). -/
theorem dedup_last_write_wins_witness :
    lookupIdx "A" [("A", ⟨100, 2⟩)] =
      specLastDelta "A" [["A", "1", "1.00", "3.00"], ["A", "1", "1.00", "2.00"]] ∧
    (([("A", (⟨100, 2⟩ : Dec))] : Index).map Prod.fst).count "A" = 1 :=
  ⟨(dedup_last_write_wins [["A", "1", "1.00", "3.00"], ["A", "1", "1.00", "2.00"]]
      [("A", ⟨100, 2⟩)] "A" (by rfl)).1,
   (dedup_last_write_wins [["A", "1", "1.00", "3.00"], ["A", "1", "1.00", "2.00"]]
      [("A", ⟨100, 2⟩)] "A" (by rfl)).2.2.1 (by decide)⟩

theorem loadRows_header_skip (hrest : List String) (r2 : List (List String)) :
    ∀ (r1 : List (List String)) (acc : Index),
      loadRows acc (r1 ++ ("NDC Description" :: hrest) :: r2) = loadRows acc (r1 ++ r2) := by
  intro r1
  induction r1 with
  | nil =>
    intro acc
    simp only [List.nil_append, loadRows]
    have : processRow ("NDC Description" :: hrest) = Except.ok none := by
      simp [processRow]
    rw [this]
  | cons row rest ih =>
    intro acc
    simp only [List.cons_append, loadRows]
    cases hpr : processRow row with
    | error e => rfl
    | ok o =>
      cases o with
      | none => exact ih acc
      | some p => obtain ⟨k, v⟩ := p; exact ih (dictUpdate acc k v)

/-- Claim C6: a row whose first field is literally "NDC Description" is
skipped wherever it occurs: deleting it from the stream leaves the result
of `parse_nadac_data` unchanged, so it contributes no data entry. -/
theorem header_row_skipped (r1 r2 : List (List String)) (hrest : List String) :
    parse_nadac_data (r1 ++ ("NDC Description" :: hrest) :: r2) =
      parse_nadac_data (r1 ++ r2) :=
  loadRows_header_skip hrest r2 r1 []

/-- Claim C7: an empty stream, or a stream holding only the header row,
loads to the empty dict with no error, and the resulting report is the two
titles with zero entry lines in either section. -/
theorem empty_input_ok :
    parse_nadac_data [] = Except.ok [] ∧
    parse_nadac_data [headerRow] = Except.ok [] ∧
    top_10_increases [] = [] ∧
    top_10_decreases [] = [] ∧
    print_top_10s [] = [increasesTitle, "", decreasesTitle] := by
  refine ⟨rfl, rfl, ?_, ?_, ?_⟩
  · simp [top_10_increases, data_by_price_change]
  · simp [top_10_decreases, data_by_price_change]
  · simp [print_top_10s, top_10_increases, top_10_decreases, data_by_price_change]

/-! ### Claim theorems: report sections and the observed defects -/

/-- Claim C1 (code defect): the loader applies no year filter.  A row whose
effective date (column 9) lies in 2021 is processed and inserted into the
dict all the same, contradicting the stated "of the target year" scope. -/
theorem year_filter_missing :
    parse_nadac_data [["AMOXICILLIN 200 MG/5 ML SUSP", "00093416073", "1.00", "2.00",
        "G", "100", "Survey Rate", "12/28/2020", "01/05/2021", "01/05/2021"]]
      = Except.ok [("AMOXICILLIN 200 MG/5 ML SUSP", ⟨100, 2⟩)] ∧
    (Except.ok [("AMOXICILLIN 200 MG/5 ML SUSP", (⟨100, 2⟩ : Dec))] : Except PyErr Index)
      ≠ Except.ok [] := by
  exact ⟨by rfl, by simp⟩

unseal List.merge List.mergeSort in
/-- Claim C2 (code defect): on the deltas [5, -3, 10, -8, 0] the decreases
slice is the tail of the descending sort left in descending order, so it
is rendered largest-first ($10 first, -$8 last), not smallest-first as the
documented example output shows. -/
theorem decreases_rendered_largest_first :
    top_10_decreases
        [("a", ⟨5, 0⟩), ("b", ⟨-3, 0⟩), ("c", ⟨10, 0⟩), ("d", ⟨-8, 0⟩), ("e", ⟨0, 0⟩)]
      = [("c", ⟨10, 0⟩), ("a", ⟨5, 0⟩), ("e", ⟨0, 0⟩), ("b", ⟨-3, 0⟩), ("d", ⟨-8, 0⟩)] ∧
    ([("c", ⟨10, 0⟩), ("a", ⟨5, 0⟩), ("e", ⟨0, 0⟩), ("b", ⟨-3, 0⟩), ("d", ⟨-8, 0⟩)] : Index)
      ≠ [("d", ⟨-8, 0⟩), ("b", ⟨-3, 0⟩), ("e", ⟨0, 0⟩), ("a", ⟨5, 0⟩), ("c", ⟨10, 0⟩)] ∧
    (top_10_decreases
        [("a", ⟨5, 0⟩), ("b", ⟨-3, 0⟩), ("c", ⟨10, 0⟩), ("d", ⟨-8, 0⟩), ("e", ⟨0, 0⟩)]).map
        reportLine
      = ["$10: c", "$5: a", "$0: e", "-$3: b", "-$8: d"] := by
  decide

/-- Claim C9 (code defect): both section titles hardcode the year 2023;
no configured target year exists, and the titles do not name 2022, the
year of the documented report. -/
theorem titles_hardcode_2023 :
    increasesTitle = "Top 10 NADAC per unit price increases of 2023:" ∧
    decreasesTitle = "Top 10 NADAC per unit price decreases of 2023:" ∧
    increasesTitle ≠ "Top 10 NADAC per unit price increases of 2022:" ∧
    decreasesTitle ≠ "Top 10 NADAC per unit price decreases of 2022:" ∧
    (∀ data : Index, (print_top_10s data).head? = some increasesTitle) := by
  exact ⟨rfl, rfl, by decide, by decide, fun data => rfl⟩

/-- Claim C8 counterexample: a stream whose only row carries an unparseable
effective-date field loads successfully — the program never parses dates,
so this malformed row raises no error of any kind. -/
theorem malformed_date_not_detected :
    parse_nadac_data [["AMOXICILLIN 200 MG/5 ML SUSP", "00093416073", "0.03051", "0.02509",
        "G", "-17.76", "Survey Rate", "12/14/2022", "12/21/2022", "not-a-date"]]
      = Except.ok [("AMOXICILLIN 200 MG/5 ML SUSP", ⟨-542, 5⟩)] ∧
    (∀ e : PyErr,
      parse_nadac_data [["AMOXICILLIN 200 MG/5 ML SUSP", "00093416073", "0.03051", "0.02509",
          "G", "-17.76", "Survey Rate", "12/14/2022", "12/21/2022", "not-a-date"]]
        ≠ Except.error e) := by
  have hok : parse_nadac_data [["AMOXICILLIN 200 MG/5 ML SUSP", "00093416073", "0.03051",
      "0.02509", "G", "-17.76", "Survey Rate", "12/14/2022", "12/21/2022", "not-a-date"]]
      = Except.ok [("AMOXICILLIN 200 MG/5 ML SUSP", ⟨-542, 5⟩)] := by rfl
  exact ⟨hok, fun e h => Except.noConfusion (hok.symm.trans h)⟩

theorem loadRows_error_of_bad_row (row : List String) (e : PyErr)
    (h : processRow row = Except.error e) (r2 : List (List String)) :
    ∀ (r1 : List (List String)) (acc : Index),
      ∃ e2, loadRows acc (r1 ++ row :: r2) = Except.error e2 := by
  intro r1
  induction r1 with
  | nil =>
    intro acc
    refine ⟨e, ?_⟩
    simp only [List.nil_append, loadRows, h]
  | cons r rest ih =>
    intro acc
    simp only [List.cons_append, loadRows]
    cases hpr : processRow r with
    | error e' => exact ⟨e', rfl⟩
    | ok o =>
      cases o with
      | none => exact ih acc
      | some p => obtain ⟨k, v⟩ := p; exact ih (dictUpdate acc k v)

/-- Claim C8 as amended: a row raising an exception (missing price column
or non-numeric price field) aborts the whole load with an uncaught
exception and no partial dict is returned, but the failure is a plain
`IndexError`/`InvalidOperation`, and rows are only inspected at columns
0, 2 and 3 — a row with parseable prices is accepted no matter what its
date fields (or any other field) hold. -/
theorem malformed_row_fail_fast (r1 r2 : List (List String)) (row : List String) (e : PyErr)
    (h : processRow row = Except.error e) :
    (∃ e2, parse_nadac_data (r1 ++ row :: r2) = Except.error e2) ∧
    (∀ (f0 f1 f2 f3 : String) (rest : List String) (old_nadac new_nadac : Dec),
      f0 ≠ "NDC Description" → parseDec f2 = some old_nadac → parseDec f3 = some new_nadac →
      processRow (f0 :: f1 :: f2 :: f3 :: rest) =
        Except.ok (some (f0, Dec.sub new_nadac old_nadac))) := by
  constructor
  · exact loadRows_error_of_bad_row row e h r2 r1 []
  · intro f0 f1 f2 f3 rest old_nadac new_nadac h0 h2 h3
    simp [processRow, h0, h2, h3]

/-- Witness for the amended C8: a row with the non-numeric price "abc"
aborts the load of the one-row stream, and the AMOXICILLIN row is accepted
with its exact delta although its date field is arbitrary text. -/
theorem malformed_row_fail_fast_witness :
    (∃ e2, parse_nadac_data [["A", "0", "abc", "2.00"]] = Except.error e2) ∧
    (∀ (f0 f1 f2 f3 : String) (rest : List String) (old_nadac new_nadac : Dec),
      f0 ≠ "NDC Description" → parseDec f2 = some old_nadac → parseDec f3 = some new_nadac →
      processRow (f0 :: f1 :: f2 :: f3 :: rest) =
        Except.ok (some (f0, Dec.sub new_nadac old_nadac))) :=
  malformed_row_fail_fast [] [] ["A", "0", "abc", "2.00"] PyErr.invalidOperation (by rfl)

/-- Claim C10: when the dict has n entries with 1 ≤ n < 10, both printed
sections carry the whole sorted dict — all n entries, in particular each
(description, delta) pair appears in both sections, which are therefore
not disjoint. -/
theorem small_index_both_sections (data : Index)
    (h1 : 1 ≤ data.length) (h2 : data.length < 10) :
    top_10_increases data = data_by_price_change data ∧
    top_10_decreases data = data_by_price_change data ∧
    (top_10_increases data).length = data.length ∧
    top_10_increases data ≠ [] ∧
    (∀ p ∈ data, p ∈ top_10_increases data ∧ p ∈ top_10_decreases data) := by
  have hlen : (data_by_price_change data).length = data.length := by
    simp [data_by_price_change]
  have hinc : top_10_increases data = data_by_price_change data := by
    rw [top_10_increases]
    exact List.take_of_length_le (by omega)
  have hdec : top_10_decreases data = data_by_price_change data := by
    rw [top_10_decreases]
    have hz : (data_by_price_change data).length - 10 = 0 := by omega
    rw [hz, List.drop_zero]
  refine ⟨hinc, hdec, by rw [hinc, hlen], ?_, ?_⟩
  · rw [hinc]
    exact List.length_pos.mp (by omega)
  · intro p hp
    have hmem : p ∈ data_by_price_change data := by
      rw [data_by_price_change]
      exact List.mem_mergeSort.mpr hp
    exact ⟨hinc ▸ hmem, hdec ▸ hmem⟩

/-- Witness for C10 at a two-entry dict holding one positive and one
negative delta: the negative entry appears in the increases section too. -/
theorem small_index_both_sections_witness :
    top_10_increases
        [("IBUPROFEN 200 MG SOFTGEL", ⟨877, 5⟩), ("AMOXICILLIN 200 MG/5 ML SUSP", ⟨-542, 5⟩)]
      = data_by_price_change
        [("IBUPROFEN 200 MG SOFTGEL", ⟨877, 5⟩), ("AMOXICILLIN 200 MG/5 ML SUSP", ⟨-542, 5⟩)] ∧
    top_10_decreases
        [("IBUPROFEN 200 MG SOFTGEL", ⟨877, 5⟩), ("AMOXICILLIN 200 MG/5 ML SUSP", ⟨-542, 5⟩)]
      = data_by_price_change
        [("IBUPROFEN 200 MG SOFTGEL", ⟨877, 5⟩), ("AMOXICILLIN 200 MG/5 ML SUSP", ⟨-542, 5⟩)] ∧
    (top_10_increases
        [("IBUPROFEN 200 MG SOFTGEL", ⟨877, 5⟩),
         ("AMOXICILLIN 200 MG/5 ML SUSP", ⟨-542, 5⟩)]).length
      = ([("IBUPROFEN 200 MG SOFTGEL", (⟨877, 5⟩ : Dec)),
          ("AMOXICILLIN 200 MG/5 ML SUSP", (⟨-542, 5⟩ : Dec))] : Index).length ∧
    top_10_increases
        [("IBUPROFEN 200 MG SOFTGEL", ⟨877, 5⟩), ("AMOXICILLIN 200 MG/5 ML SUSP", ⟨-542, 5⟩)]
      ≠ [] ∧
    (∀ p ∈ ([("IBUPROFEN 200 MG SOFTGEL", (⟨877, 5⟩ : Dec)),
          ("AMOXICILLIN 200 MG/5 ML SUSP", (⟨-542, 5⟩ : Dec))] : Index),
      p ∈ top_10_increases
          [("IBUPROFEN 200 MG SOFTGEL", ⟨877, 5⟩), ("AMOXICILLIN 200 MG/5 ML SUSP", ⟨-542, 5⟩)] ∧
      p ∈ top_10_decreases
          [("IBUPROFEN 200 MG SOFTGEL", ⟨877, 5⟩),
           ("AMOXICILLIN 200 MG/5 ML SUSP", ⟨-542, 5⟩)]) :=
  small_index_both_sections
    [("IBUPROFEN 200 MG SOFTGEL", ⟨877, 5⟩), ("AMOXICILLIN 200 MG/5 ML SUSP", ⟨-542, 5⟩)]
    (by decide) (by decide)

end NadacMain
